import Mathlib

/-!
Verification of the auction-factory registry/query core (`src/msg.rs` plus the
registry behaviour documented in the specification).

The message and storage types, together with the two conversion functions
`RegisterAuctionInfo.to_store_auction_info` and
`StoreAuctionInfo.to_store_closed_auction_info`, are translated directly from
`src/src/msg.rs`.  The registry state machine (register / close / bidder
maintenance), the closed-ledger pagination and the viewing-key authenticator
are not part of the sources provided (only their message declarations are), so
they are modelled from the specification; each such definition carries a doc
comment saying so.
-/

namespace AuctionFactory

/-- Human-readable bech32 address (cosmwasm `HumanAddr`), modelled as a string. -/
abbrev HumanAddr := String

/-- Canonical binary address (cosmwasm `CanonicalAddr`), modelled as a string. -/
abbrev CanonicalAddr := String

/-- cosmwasm `Uint128`: a wrapper around a 128-bit unsigned integer.  The
claims proved here involve no arithmetic on it, so the payload is a `Nat`. -/
structure Uint128 where
  val : Nat
deriving DecidableEq

/-- cosmwasm `Uint128::u128`: returns the wrapped integer exactly. -/
def Uint128.u128 (self : Uint128) : Nat := self.val

/-- code hash and address of a contract (`ContractInfo` in `msg.rs`). -/
structure ContractInfo where
  code_hash : String
  address : HumanAddr
deriving DecidableEq

/-- info needed to instantiate an auction (`AuctionContractInfo` in `msg.rs`). -/
structure AuctionContractInfo where
  code_id : Nat
  code_hash : String
deriving DecidableEq

/-- active auction info supplied on registration (`RegisterAuctionInfo` in
`msg.rs`): index, label, interned symbols, amounts and closing time. -/
structure RegisterAuctionInfo where
  index : Nat
  label : String
  sell_symbol : Nat
  bid_symbol : Nat
  sell_amount : Uint128
  minimum_bid : Uint128
  ends_at : Nat
deriving DecidableEq

/-- active auction info for storage (`StoreAuctionInfo` in `msg.rs`). -/
structure StoreAuctionInfo where
  address : CanonicalAddr
  label : String
  sell_symbol : Nat
  bid_symbol : Nat
  sell_amount : Nat
  minimum_bid : Nat
  ends_at : Nat
deriving DecidableEq

/-- `RegisterAuctionInfo::to_store_auction_info` from `msg.rs`: takes the
register auction information and creates a store auction info struct. -/
def RegisterAuctionInfo.to_store_auction_info (self : RegisterAuctionInfo)
    (address : CanonicalAddr) : StoreAuctionInfo :=
  { address := address
    label := self.label
    sell_symbol := self.sell_symbol
    bid_symbol := self.bid_symbol
    sell_amount := self.sell_amount.u128
    minimum_bid := self.minimum_bid.u128
    ends_at := self.ends_at }

/-- closed auction storage format (`StoreClosedAuctionInfo` in `msg.rs`). -/
structure StoreClosedAuctionInfo where
  address : CanonicalAddr
  label : String
  sell_symbol : Nat
  bid_symbol : Nat
  sell_amount : Nat
  winning_bid : Option Nat
  timestamp : Nat
deriving DecidableEq

/-- `StoreAuctionInfo::to_store_closed_auction_info` from `msg.rs`: takes the
active auction information and creates a closed auction info struct. -/
def StoreAuctionInfo.to_store_closed_auction_info (self : StoreAuctionInfo)
    (winning_bid : Option Nat) (timestamp : Nat) : StoreClosedAuctionInfo :=
  { address := self.address
    label := self.label
    sell_symbol := self.sell_symbol
    bid_symbol := self.bid_symbol
    sell_amount := self.sell_amount
    winning_bid := winning_bid
    timestamp := timestamp }

/-- handle messages (`HandleMsg` in `msg.rs`), one constructor per variant. -/
inductive HandleMsg where
  | CreateAuction (label : String) (sell_contract : ContractInfo)
      (bid_contract : ContractInfo) (sell_amount : Uint128)
      (minimum_bid : Uint128) (ends_at : Nat) (description : Option String)
  | RegisterAuction (seller : HumanAddr) (auction : RegisterAuctionInfo)
      (sell_contract : ContractInfo)
  | CloseAuction (index : Nat) (seller : HumanAddr)
      (bidder : Option HumanAddr) (winning_bid : Option Uint128)
  | RegisterBidder (index : Nat) (bidder : HumanAddr)
  | RemoveBidder (index : Nat) (bidder : HumanAddr)
  | NewAuctionContract (auction_contract : AuctionContractInfo)
  | CreateViewingKey (entropy : String)
  | SetViewingKey (key : String) (padding : Option String)
  | SetStatus (stop : Bool)
  | ChangeAuctionInfo (index : Nat) (ends_at : Option Nat)
      (minimum_bid : Option Uint128)
deriving DecidableEq

/-- the wire-level field set of a `CloseAuction` message.  In `msg.rs` the
`bidder` and `winning_bid` fields each carry `#[serde(default)]`, so each may
be missing from the serialized message independently of the other; `none` in
the outer option models a missing field, `some v` a present one. -/
structure CloseAuctionFields where
  index : Nat
  seller : HumanAddr
  bidder : Option (Option HumanAddr)
  winning_bid : Option (Option Uint128)
deriving DecidableEq

/-- deserialization of a `CloseAuction` message as dictated by the
`#[serde(default)]` attributes in `msg.rs`: a missing `bidder` or
`winning_bid` field defaults to `None`; no combination is rejected. -/
def parseCloseAuction (f : CloseAuctionFields) : HandleMsg :=
  HandleMsg.CloseAuction f.index f.seller (f.bidder.getD none)
    (f.winning_bid.getD none)

/-- C8: the Auction Record Builder (`to_store_auction_info`) copies `label`,
`sell_symbol`, `bid_symbol` and `ends_at` from the request, stores the exact
integers wrapped by the request's `Uint128` amounts, and stores the supplied
canonical address. -/
theorem to_store_auction_info_spec (r : RegisterAuctionInfo)
    (addr : CanonicalAddr) :
    (r.to_store_auction_info addr).label = r.label ∧
    (r.to_store_auction_info addr).sell_symbol = r.sell_symbol ∧
    (r.to_store_auction_info addr).bid_symbol = r.bid_symbol ∧
    (r.to_store_auction_info addr).ends_at = r.ends_at ∧
    (r.to_store_auction_info addr).sell_amount = r.sell_amount.u128 ∧
    (r.to_store_auction_info addr).minimum_bid = r.minimum_bid.u128 ∧
    (r.to_store_auction_info addr).address = addr :=
  ⟨rfl, rfl, rfl, rfl, rfl, rfl, rfl⟩

/-- C2 counterexample: the closed record does NOT carry every field the active
record held.  Two active records that differ only in `minimum_bid` and
`ends_at` are mapped by `to_store_closed_auction_info` to identical closed
records, so those two fields of the active record are dropped, not
snapshotted. -/
theorem to_store_closed_drops_fields :
    (⟨"auct1", "lbl", 1, 2, 1000, 100, 500⟩ : StoreAuctionInfo) ≠
      (⟨"auct1", "lbl", 1, 2, 1000, 999, 777⟩ : StoreAuctionInfo) ∧
    StoreAuctionInfo.to_store_closed_auction_info
        ⟨"auct1", "lbl", 1, 2, 1000, 100, 500⟩ (some 150) 5 =
      StoreAuctionInfo.to_store_closed_auction_info
        ⟨"auct1", "lbl", 1, 2, 1000, 999, 777⟩ (some 150) 5 := by
  exact ⟨by decide, rfl⟩

/-- C2 (amended): the closed record produced by
`to_store_closed_auction_info` snapshots the identifying fields `address`,
`label`, `sell_symbol`, `bid_symbol` and `sell_amount` of the active record
(but not its `minimum_bid` or `ends_at`), and additionally carries
`winning_bid` equal to the supplied option — absent exactly when the auction
closed unsold — and `timestamp` equal to the supplied closing time. -/
theorem to_store_closed_auction_info_spec (a : StoreAuctionInfo)
    (wb : Option Nat) (t : Nat) :
    (a.to_store_closed_auction_info wb t).address = a.address ∧
    (a.to_store_closed_auction_info wb t).label = a.label ∧
    (a.to_store_closed_auction_info wb t).sell_symbol = a.sell_symbol ∧
    (a.to_store_closed_auction_info wb t).bid_symbol = a.bid_symbol ∧
    (a.to_store_closed_auction_info wb t).sell_amount = a.sell_amount ∧
    (a.to_store_closed_auction_info wb t).winning_bid = wb ∧
    ((a.to_store_closed_auction_info wb t).winning_bid = none ↔ wb = none) ∧
    (a.to_store_closed_auction_info wb t).timestamp = t :=
  ⟨rfl, rfl, rfl, rfl, rfl, rfl, Iff.rfl, rfl⟩

/-- C10: in the `CloseAuction` message, `bidder` and `winning_bid` are each
independently optional and default to `None` when missing, so the interface
accepts a close carrying a `winning_bid` with no `bidder`, or a `bidder` with
no `winning_bid`; no pairing of the two fields is enforced by the message
shape. -/
theorem closeAuction_fields_independent :
    (∀ (idx : Nat) (seller : HumanAddr) (wb : Uint128),
      parseCloseAuction ⟨idx, seller, none, some (some wb)⟩ =
        HandleMsg.CloseAuction idx seller none (some wb)) ∧
    (∀ (idx : Nat) (seller : HumanAddr) (b : HumanAddr),
      parseCloseAuction ⟨idx, seller, some (some b), none⟩ =
        HandleMsg.CloseAuction idx seller (some b) none) ∧
    (∀ f : CloseAuctionFields,
      parseCloseAuction f = HandleMsg.CloseAuction f.index f.seller
        (f.bidder.getD none) (f.winning_bid.getD none)) :=
  ⟨fun _ _ _ => rfl, fun _ _ _ => rfl, fun _ => rfl⟩

/-- fallback record for `List.getD`; never reached, since every position the
pagination touches is in range. -/
def defaultClosed : StoreClosedAuctionInfo := ⟨"", "", 0, 0, 0, none, 0⟩

/-- Modelled from the spec: the Closed Ledger is an append-only sequence of
`StoreClosedAuctionInfo` records in which the record at list position `p` has
ledger position `p`, so an append only ever creates positions greater than any
already issued.  `listClosedAuctions ledger before page_size` answers the
`QueryMsg::ListClosedAuctions` query: it returns at most `page_size` records
(default 200) drawn from positions strictly less than `before` (from the most
recent when `before` is absent), in descending position order, paired with the
continuation cursor `next_before` — the position of the last record returned,
or `none` when the ledger below the cursor is exhausted.  The query handler
itself is not under `src/`; only its message declaration is. -/
def listClosedAuctions (ledger : List StoreClosedAuctionInfo)
    (before : Option Nat) (page_size : Option Nat) :
    List (Nat × StoreClosedAuctionInfo) × Option Nat :=
  let sz := page_size.getD 200
  let limit := min (before.getD ledger.length) ledger.length
  let avail := (List.range limit).reverse
  let page := avail.take sz
  let records := page.map (fun p => (p, ledger.getD p defaultClosed))
  let next := if avail.length ≤ sz then none else page.getLast?
  (records, next)

/-- positions paged all lie below `min before length`. -/
theorem mem_page_lt (limit sz p : Nat)
    (hp : p ∈ ((List.range limit).reverse.take sz)) : p < limit := by
  have hsub : p ∈ (List.range limit).reverse :=
    (List.take_sublist sz _).subset hp
  exact List.mem_range.mp (List.mem_reverse.mp hsub)

/-- C1: every `ListClosedAuctions` page holds at most `page_size` records
(default 200), each drawn from the ledger at a position strictly below the
`before` cursor (below the ledger length when `before` is absent), in strictly
descending position order; when the positions below the cursor all fit in the
page the `next_before` cursor is absent, and whenever `next_before` is present
it equals the position of the last record returned. -/
theorem listClosedAuctions_page_spec (L : List StoreClosedAuctionInfo)
    (before page_size : Option Nat)
    (records : List (Nat × StoreClosedAuctionInfo)) (next : Option Nat)
    (h : listClosedAuctions L before page_size = (records, next)) :
    records.length ≤ page_size.getD 200 ∧
    List.Pairwise (fun x y => y.1 < x.1) records ∧
    (∀ pr ∈ records, L[pr.1]? = some pr.2 ∧ pr.1 < before.getD L.length) ∧
    (min (before.getD L.length) L.length ≤ page_size.getD 200 →
      next = none) ∧
    (∀ p, next = some p → records.getLast?.map Prod.fst = some p) := by
  unfold listClosedAuctions at h
  simp only [Prod.mk.injEq] at h
  obtain ⟨hrec, hnext⟩ := h
  subst hrec hnext
  refine ⟨?_, ?_, ?_, ?_, ?_⟩
  · simp [List.length_take]
  · rw [List.pairwise_map]
    refine List.Pairwise.sublist (List.take_sublist _ _) ?_
    rw [List.pairwise_reverse]
    exact List.pairwise_lt_range _
  · intro pr hpr
    obtain ⟨p, hp, rfl⟩ := List.mem_map.mp hpr
    have hlt : p < min (before.getD L.length) L.length := mem_page_lt _ _ _ hp
    have hlen : p < L.length := lt_of_lt_of_le hlt (min_le_right _ _)
    constructor
    · rw [List.getD_eq_getElem?_getD, List.getElem?_eq_getElem hlen]
      rfl
    · exact lt_of_lt_of_le hlt (min_le_left _ _)
  · intro hle
    have hcond : ((List.range (min (before.getD L.length) L.length)).reverse).length ≤
        page_size.getD 200 := by simpa using hle
    exact if_pos hcond
  · intro p hp
    by_cases hc : ((List.range (min (before.getD L.length) L.length)).reverse).length ≤
        page_size.getD 200
    · rw [if_pos hc] at hp
      cases hp
    · rw [if_neg hc] at hp
      rw [List.getLast?_map, hp]
      rfl

/-- C5: cursor stability.  A `next_before` cursor fetched from a page query on
a ledger snapshot keeps returning exactly the same response — same records,
same order, same continuation — after any number of new closed records are
appended to the ledger. -/
theorem listClosedAuctions_cursor_stable (L ext : List StoreClosedAuctionInfo)
    (before page_size page_size2 : Option Nat)
    (records : List (Nat × StoreClosedAuctionInfo)) (b : Nat)
    (h : listClosedAuctions L before page_size = (records, some b)) :
    listClosedAuctions (L ++ ext) (some b) page_size2 =
      listClosedAuctions L (some b) page_size2 := by
  have hb : b < L.length := by
    unfold listClosedAuctions at h
    simp only [Prod.mk.injEq] at h
    obtain ⟨-, hnext⟩ := h
    by_cases hc : ((List.range (min (before.getD L.length) L.length)).reverse).length ≤
        page_size.getD 200
    · rw [if_pos hc] at hnext
      cases hnext
    · rw [if_neg hc] at hnext
      have hbmem : b ∈ (List.range (min (before.getD L.length) L.length)).reverse.take
          (page_size.getD 200) := by
        obtain ⟨hne, hlast⟩ := List.mem_getLast?_eq_getLast (Option.mem_def.mpr hnext)
        exact hlast ▸ List.getLast_mem hne
      exact lt_of_lt_of_le (mem_page_lt _ _ _ hbmem) (min_le_right _ _)
  have hbL : min b L.length = b := min_eq_left (le_of_lt hb)
  have hbLe : min b (L ++ ext).length = b := by
    rw [List.length_append]
    exact min_eq_left (le_trans (le_of_lt hb) (Nat.le_add_right _ _))
  unfold listClosedAuctions
  simp only [Option.getD_some, hbL, hbLe, Prod.mk.injEq]
  constructor
  · refine List.map_congr_left ?_
    intro p hp
    have hpb : p < b := mem_page_lt _ _ _ hp
    have hpL : p < L.length := lt_trans hpb hb
    rw [List.getD_eq_getElem?_getD, List.getD_eq_getElem?_getD,
      List.getElem?_append_left hpL]
  · trivial

/-- sample closed record (auction that closed unsold). -/
def sampleClosedA : StoreClosedAuctionInfo := ⟨"auctA", "a", 1, 2, 10, none, 1⟩

/-- sample closed record (auction that closed in a swap). -/
def sampleClosedB : StoreClosedAuctionInfo :=
  ⟨"auctB", "b", 1, 2, 20, some 15, 2⟩

/-- C1 witness at a concrete ledger of two records with `before = 2`,
`page_size = 1`: the page holds position 1 with the second record, and that
position is below the cursor. -/
theorem listClosedAuctions_page_spec_witness :
    [sampleClosedA, sampleClosedB][(1 : Nat)]? = some sampleClosedB ∧
      (1 : Nat) < 2 := by
  have h := listClosedAuctions_page_spec [sampleClosedA, sampleClosedB]
    (some 2) (some 1) [(1, sampleClosedB)] (some 1) (by rfl)
  exact h.2.2.1 (1, sampleClosedB) (by simp)

/-- C5 witness: a cursor fetched from a two-record ledger with page size 1
returns the same page before and after a third record is appended. -/
theorem listClosedAuctions_cursor_stable_witness :
    listClosedAuctions ([sampleClosedA, sampleClosedB] ++ [sampleClosedA])
        (some 1) (some 200) =
      listClosedAuctions [sampleClosedA, sampleClosedB] (some 1) (some 200) :=
  listClosedAuctions_cursor_stable [sampleClosedA, sampleClosedB]
    [sampleClosedA] none (some 1) (some 200) [(1, sampleClosedB)] 1 (by rfl)

/-- lookup of one address's index set in a per-address index map
(`address → ordered sequence of auction keys`); an absent address owns the
empty set. -/
def lookupSet : List (HumanAddr × List Nat) → HumanAddr → List Nat
  | [], _ => []
  | (b, l) :: rest, a => if a = b then l else lookupSet rest a

/-- add key `i` to address `a`'s index set, idempotently, keeping insertion
order. -/
def addToSet : List (HumanAddr × List Nat) → HumanAddr → Nat →
    List (HumanAddr × List Nat)
  | [], a, i => [(a, [i])]
  | (b, l) :: rest, a, i =>
    if a = b then (b, if i ∈ l then l else l ++ [i]) :: rest
    else (b, l) :: addToSet rest a i

/-- remove key `i` from address `a`'s index set; removing a non-member or an
unknown address is a no-op. -/
def removeFromSet (sets : List (HumanAddr × List Nat)) (a : HumanAddr)
    (i : Nat) : List (HumanAddr × List Nat) :=
  sets.map (fun p => if p.1 = a then (p.1, p.2.filter (fun j => j != i)) else p)

/-- remove key `i` from every address's index set. -/
def removeFromAll (sets : List (HumanAddr × List Nat)) (i : Nat) :
    List (HumanAddr × List Nat) :=
  sets.map (fun p => (p.1, p.2.filter (fun j => j != i)))

/-- one Active Registry entry: the auction's index (primary key), its seller,
and the stored record. -/
structure ActiveEntry where
  index : Nat
  seller : HumanAddr
  info : StoreAuctionInfo
deriving DecidableEq

/-- lookup of an active auction by index. -/
def lookupActive : List ActiveEntry → Nat → Option (HumanAddr × StoreAuctionInfo)
  | [], _ => none
  | e :: rest, i => if i = e.index then some (e.seller, e.info) else lookupActive rest i

/-- Modelled from the spec: the registry state — Active Registry keyed by
`index`, the set of indices ever issued (indices are never recycled), the four
per-address index sets, and the append-only Closed Ledger (positions are list
positions).  The handlers maintaining this state are not under `src/`; only
their message declarations are. -/
structure FactoryState where
  active : List ActiveEntry
  everUsed : List Nat
  activeAsSeller : List (HumanAddr × List Nat)
  activeAsBidder : List (HumanAddr × List Nat)
  closed : List StoreClosedAuctionInfo
  closedAsSeller : List (HumanAddr × List Nat)
  closedWon : List (HumanAddr × List Nat)
deriving DecidableEq

/-- error taxonomy of the registry (spec §7); `ZeroSellAmount` stands for the
rejection enforcing the Active Registry invariant `sell_amount > 0`. -/
inductive FactoryError where
  | Unauthorized
  | Stopped
  | UnknownAuction
  | DuplicateIndex
  | SellerMismatch
  | ZeroSellAmount
deriving DecidableEq

/-- Modelled from the spec: `register(seller, record)` — fails with
`DuplicateIndex` if the index was ever issued (indices are never reused, even
after the record is removed), rejects a zero `sell_amount` (Active Registry
invariant `sell_amount > 0`), and otherwise stores the record built by
`to_store_auction_info` and adds the index to the seller's active-as-seller
set.  The `RegisterAuction` handler is not under `src/`. -/
def register (s : FactoryState) (seller : HumanAddr)
    (auction : RegisterAuctionInfo) (address : CanonicalAddr) :
    Except FactoryError FactoryState :=
  if auction.index ∈ s.everUsed then .error .DuplicateIndex
  else if auction.sell_amount.u128 = 0 then .error .ZeroSellAmount
  else .ok { s with
    active := s.active ++
      [⟨auction.index, seller, auction.to_store_auction_info address⟩]
    everUsed := s.everUsed ++ [auction.index]
    activeAsSeller := addToSet s.activeAsSeller seller auction.index }

/-- Modelled from the spec: `close(index, seller, bidder?, winning_bid)` —
fails with `UnknownAuction` if the index is absent and `SellerMismatch` if the
supplied seller does not match the stored one; otherwise removes the record
from the Active Registry, clears the index from every address's
active-as-seller and active-as-bidder sets, appends the snapshot built by the
source's `to_store_closed_auction_info` to the Closed Ledger at the next
position, records the position in the seller's closed-as-seller set, and in
the winner's closed-won set when both `bidder` and `winning_bid` are present.
The `CloseAuction` handler is not under `src/`. -/
def close (s : FactoryState) (index : Nat) (seller : HumanAddr)
    (bidder : Option HumanAddr) (winning_bid : Option Nat) (time : Nat) :
    Except FactoryError FactoryState :=
  match lookupActive s.active index with
  | none => .error .UnknownAuction
  | some (stored_seller, info) =>
    if seller = stored_seller then
      .ok { s with
        active := s.active.filter (fun e => e.index != index)
        activeAsSeller := removeFromAll s.activeAsSeller index
        activeAsBidder := removeFromAll s.activeAsBidder index
        closed := s.closed ++ [info.to_store_closed_auction_info winning_bid time]
        closedAsSeller := addToSet s.closedAsSeller stored_seller s.closed.length
        closedWon :=
          match bidder, winning_bid with
          | some b, some _ => addToSet s.closedWon b s.closed.length
          | _, _ => s.closedWon }
    else .error .SellerMismatch

/-- Modelled from the spec: `add_bidder(index, bidder)` (`RegisterBidder`) —
fails with `UnknownAuction` if the index is absent, otherwise idempotently
adds the index to the bidder's active-as-bidder set.  The handler is not under
`src/`. -/
def addBidder (s : FactoryState) (index : Nat) (bidder : HumanAddr) :
    Except FactoryError FactoryState :=
  match lookupActive s.active index with
  | none => .error .UnknownAuction
  | some _ => .ok { s with activeAsBidder := addToSet s.activeAsBidder bidder index }

/-- state produced by `removeBidder` (always succeeds). -/
def removeBidderState (s : FactoryState) (index : Nat) (bidder : HumanAddr) :
    FactoryState :=
  { s with activeAsBidder := removeFromSet s.activeAsBidder bidder index }

/-- Modelled from the spec: `remove_bidder(index, bidder)` (`RemoveBidder`) —
idempotent removal of the index from the bidder's active-as-bidder set; an
unknown index or a non-member bidder is not an error (the auction may have
already closed).  The handler is not under `src/`. -/
def removeBidder (s : FactoryState) (index : Nat) (bidder : HumanAddr) :
    Except FactoryError FactoryState :=
  .ok (removeBidderState s index bidder)

/-- one mutating registry call, for reasoning about call sequences. -/
inductive FactoryOp where
  | register (seller : HumanAddr) (auction : RegisterAuctionInfo)
      (address : CanonicalAddr)
  | close (index : Nat) (seller : HumanAddr) (bidder : Option HumanAddr)
      (winning_bid : Option Nat) (time : Nat)
  | addBidder (index : Nat) (bidder : HumanAddr)
  | removeBidder (index : Nat) (bidder : HumanAddr)

/-- apply one call to the state; per spec §7 a failed call commits nothing,
so an error leaves the state unchanged. -/
def applyOp (s : FactoryState) (op : FactoryOp) : FactoryState :=
  match op with
  | .register seller auction address =>
    match register s seller auction address with
    | .ok s2 => s2
    | .error _ => s
  | .close index seller bidder wb time =>
    match close s index seller bidder wb time with
    | .ok s2 => s2
    | .error _ => s
  | .addBidder index bidder =>
    match addBidder s index bidder with
    | .ok s2 => s2
    | .error _ => s
  | .removeBidder index bidder =>
    match removeBidder s index bidder with
    | .ok s2 => s2
    | .error _ => s

/-- the freshly instantiated factory: no auctions, no indices issued. -/
def initState : FactoryState := ⟨[], [], [], [], [], [], []⟩

/-- run a sequence of mutating calls. -/
def exec (s : FactoryState) : List FactoryOp → FactoryState
  | [] => s
  | op :: rest => exec (applyOp s op) rest

/-- registry invariants: every active index was issued, active indices are
pairwise distinct, and every active record has a positive sell amount. -/
def StateInv (s : FactoryState) : Prop :=
  (∀ e ∈ s.active, e.index ∈ s.everUsed) ∧
  (s.active.map (fun e => e.index)).Nodup ∧
  (∀ e ∈ s.active, 0 < e.info.sell_amount)

/-- filtering twice with the same predicate filters once. -/
theorem filter_idem (f : Nat → Bool) (l : List Nat) :
    (l.filter f).filter f = l.filter f := by
  induction l with
  | nil => rfl
  | cons x t ih => cases hf : f x <;> simp [List.filter_cons, hf, ih]

/-- `removeFromSet` is idempotent. -/
theorem removeFromSet_idem (sets : List (HumanAddr × List Nat))
    (a : HumanAddr) (i : Nat) :
    removeFromSet (removeFromSet sets a i) a i = removeFromSet sets a i := by
  simp only [removeFromSet, List.map_map]
  refine List.map_congr_left ?_
  intro p _
  by_cases h : p.1 = a
  · simp [Function.comp, h, filter_idem]
  · simp [Function.comp, h]

/-- looking up after `removeFromAll` filters the set of every address. -/
theorem lookupSet_removeFromAll (sets : List (HumanAddr × List Nat))
    (i : Nat) (a : HumanAddr) :
    lookupSet (removeFromAll sets i) a =
      (lookupSet sets a).filter (fun j => j != i) := by
  induction sets with
  | nil => rfl
  | cons p rest ih =>
    obtain ⟨b, l⟩ := p
    by_cases h : a = b
    · simp [removeFromAll, lookupSet, h]
    · simpa [removeFromAll, lookupSet, h] using ih

/-- after `removeFromAll sets i` no address's set contains `i`. -/
theorem not_mem_lookupSet_removeFromAll (sets : List (HumanAddr × List Nat))
    (i : Nat) (a : HumanAddr) : i ∉ lookupSet (removeFromAll sets i) a := by
  rw [lookupSet_removeFromAll]
  simp [List.mem_filter]

/-- `addToSet` puts the key into the address's set. -/
theorem mem_lookupSet_addToSet (sets : List (HumanAddr × List Nat))
    (a : HumanAddr) (i : Nat) : i ∈ lookupSet (addToSet sets a i) a := by
  induction sets with
  | nil => simp [addToSet, lookupSet]
  | cons p rest ih =>
    obtain ⟨b, l⟩ := p
    by_cases h : a = b
    · by_cases hm : i ∈ l <;> simp [addToSet, lookupSet, h, hm]
    · simpa [addToSet, lookupSet, h] using ih

/-- after removal by index no lookup at that index succeeds. -/
theorem lookupActive_remove (l : List ActiveEntry) (i : Nat) :
    lookupActive (l.filter (fun e => e.index != i)) i = none := by
  induction l with
  | nil => rfl
  | cons e t ih =>
    by_cases h : e.index = i
    · simpa [List.filter_cons, h] using ih
    · simpa [List.filter_cons, lookupActive, h, Ne.symm h] using ih

/-- a successful lookup comes from an entry of the list. -/
theorem lookupActive_mem {l : List ActiveEntry} {i : Nat}
    {pr : HumanAddr × StoreAuctionInfo} (h : lookupActive l i = some pr) :
    (⟨i, pr.1, pr.2⟩ : ActiveEntry) ∈ l := by
  induction l with
  | nil => cases h
  | cons e t ih =>
    unfold lookupActive at h
    by_cases hi : i = e.index
    · rw [if_pos hi] at h
      injection h with h
      subst h
      subst hi
      exact List.mem_cons_self _ _
    · rw [if_neg hi] at h
      exact List.mem_cons_of_mem _ (ih h)

/-- one registry call preserves the registry invariants. -/
theorem stateInv_applyOp (s : FactoryState) (op : FactoryOp)
    (h : StateInv s) : StateInv (applyOp s op) := by
  obtain ⟨h1, h2, h3⟩ := h
  cases op with
  | register seller auction address =>
    by_cases hDup : auction.index ∈ s.everUsed
    · simp [applyOp, register, hDup]
      exact ⟨h1, h2, h3⟩
    · by_cases hZero : auction.sell_amount.u128 = 0
      · simp [applyOp, register, hDup, hZero]
        exact ⟨h1, h2, h3⟩
      · simp only [applyOp, register, hDup, hZero, if_neg, if_false, ite_false]
        refine ⟨?_, ?_, ?_⟩
        · intro e he
          rcases List.mem_append.mp he with hold | hnew
          · exact List.mem_append_left _ (h1 e hold)
          · rw [List.mem_singleton.mp hnew]
            exact List.mem_append_right _ (List.mem_singleton_self _)
        · rw [List.map_append]
          refine List.Nodup.append h2 (List.nodup_singleton _) ?_
          intro x hx hx2
          rw [List.mem_singleton.mp hx2] at hx
          obtain ⟨e, he, hei⟩ := List.mem_map.mp hx
          have hei2 : e.index = auction.index := hei
          exact hDup (hei2 ▸ h1 e he)
        · intro e he
          rcases List.mem_append.mp he with hold | hnew
          · exact h3 e hold
          · rw [List.mem_singleton.mp hnew]
            exact Nat.pos_of_ne_zero hZero
  | close index seller bidder wb time =>
    cases hla : lookupActive s.active index with
    | none => simpa [applyOp, close, hla] using ⟨h1, h2, h3⟩
    | some pr =>
      obtain ⟨ss, info⟩ := pr
      by_cases hs : seller = ss
      · simp only [applyOp, close, hla, hs, if_pos]
        refine ⟨?_, ?_, ?_⟩
        · intro e he
          exact h1 e (List.mem_of_mem_filter he)
        · exact List.Nodup.sublist (List.Sublist.map _ (List.filter_sublist _)) h2
        · intro e he
          exact h3 e (List.mem_of_mem_filter he)
      · simpa [applyOp, close, hla, hs] using ⟨h1, h2, h3⟩
  | addBidder index bidder =>
    cases hla : lookupActive s.active index with
    | none => simpa [applyOp, addBidder, hla] using ⟨h1, h2, h3⟩
    | some pr => simpa [applyOp, addBidder, hla] using ⟨h1, h2, h3⟩
  | removeBidder index bidder =>
    simpa [applyOp, removeBidder, removeBidderState] using ⟨h1, h2, h3⟩

/-- issued indices persist across any single call. -/
theorem everUsed_mono (s : FactoryState) (op : FactoryOp) (i : Nat)
    (h : i ∈ s.everUsed) : i ∈ (applyOp s op).everUsed := by
  cases op with
  | register seller auction address =>
    by_cases hDup : auction.index ∈ s.everUsed
    · simpa [applyOp, register, hDup] using h
    · by_cases hZero : auction.sell_amount.u128 = 0
      · simpa [applyOp, register, hDup, hZero] using h
      · simp only [applyOp, register, hDup, hZero, if_neg, if_false, ite_false]
        exact List.mem_append_left _ h
  | close index seller bidder wb time =>
    cases hla : lookupActive s.active index with
    | none => simpa [applyOp, close, hla] using h
    | some pr =>
      obtain ⟨ss, info⟩ := pr
      by_cases hs : seller = ss
      · simpa [applyOp, close, hla, hs] using h
      · simpa [applyOp, close, hla, hs] using h
  | addBidder index bidder =>
    cases hla : lookupActive s.active index with
    | none => simpa [applyOp, addBidder, hla] using h
    | some pr => simpa [applyOp, addBidder, hla] using h
  | removeBidder index bidder =>
    simpa [applyOp, removeBidder, removeBidderState] using h

/-- issued indices persist across any call sequence. -/
theorem everUsed_mono_exec (ops : List FactoryOp) (s : FactoryState) (i : Nat)
    (h : i ∈ s.everUsed) : i ∈ (exec s ops).everUsed := by
  induction ops generalizing s with
  | nil => exact h
  | cons op rest ih => exact ih (applyOp s op) (everUsed_mono s op i h)

/-- the registry invariants hold along every call sequence. -/
theorem stateInv_exec (ops : List FactoryOp) (s : FactoryState)
    (h : StateInv s) : StateInv (exec s ops) := by
  induction ops generalizing s with
  | nil => exact h
  | cons op rest ih => exact ih (applyOp s op) (stateInv_applyOp s op h)

/-- the fresh factory satisfies the registry invariants. -/
theorem stateInv_init : StateInv initState := by
  refine ⟨?_, ?_, ?_⟩ <;> simp [initState]

/-- C4: along every sequence of registry calls starting from the fresh
factory, no two active records ever share an index; once an index has been
issued — even if its record was later removed — any attempt to register it
again fails with `DuplicateIndex` and leaves the state unchanged; and an index
currently present in the Active Registry always triggers that failure. -/
theorem register_index_unique (ops ops2 : List FactoryOp) (seller : HumanAddr)
    (auction : RegisterAuctionInfo) (address : CanonicalAddr)
    (h : auction.index ∈ (exec initState ops).everUsed) :
    ((exec initState ops).active.map (fun e => e.index)).Nodup ∧
    register (exec (exec initState ops) ops2) seller auction address =
      .error .DuplicateIndex ∧
    applyOp (exec (exec initState ops) ops2)
      (.register seller auction address) = exec (exec initState ops) ops2 ∧
    (∀ pr, lookupActive (exec initState ops).active auction.index = some pr →
      register (exec initState ops) seller auction address =
        .error .DuplicateIndex) := by
  have hinv := stateInv_exec ops initState stateInv_init
  have hmem2 : auction.index ∈ (exec (exec initState ops) ops2).everUsed :=
    everUsed_mono_exec ops2 _ _ h
  refine ⟨hinv.2.1, ?_, ?_, ?_⟩
  · unfold register
    rw [if_pos hmem2]
  · simp [applyOp, register, hmem2]
  · intro pr hpr
    have hm := lookupActive_mem hpr
    have hIdx : auction.index ∈ (exec initState ops).everUsed := hinv.1 _ hm
    unfold register
    rw [if_pos hIdx]

/-- C9: along every call sequence from the fresh factory every record held in
the Active Registry has `sell_amount > 0`; and whenever `register` accepts a
request, the record it stores — built by `to_store_auction_info` — has
`sell_amount > 0`. -/
theorem register_sell_amount_pos (ops : List FactoryOp) (s : FactoryState)
    (seller : HumanAddr) (auction : RegisterAuctionInfo)
    (address : CanonicalAddr) (s2 : FactoryState) :
    (∀ e ∈ (exec initState ops).active, 0 < e.info.sell_amount) ∧
    (register s seller auction address = .ok s2 →
      0 < (auction.to_store_auction_info address).sell_amount ∧
      s2.active = s.active ++
        [⟨auction.index, seller, auction.to_store_auction_info address⟩]) := by
  constructor
  · exact (stateInv_exec ops initState stateInv_init).2.2
  · intro hok
    unfold register at hok
    by_cases h1 : auction.index ∈ s.everUsed
    · rw [if_pos h1] at hok
      cases hok
    · rw [if_neg h1] at hok
      by_cases h2 : auction.sell_amount.u128 = 0
      · rw [if_pos h2] at hok
        cases hok
      · rw [if_neg h2] at hok
        injection hok with hok
        subst hok
        exact ⟨Nat.pos_of_ne_zero h2, rfl⟩

/-- C3: when auction `i` is active with seller `seller` and record `info`, a
successful `close i seller (some b) wb t` leaves `i` absent from the Active
Registry, appends the closing snapshot to the Closed Ledger where it is
present exactly once, clears `i` from every address's active-as-seller and
active-as-bidder sets, and puts the new position into bidder `b`'s closed-won
set iff the winning bid is non-null. -/
theorem close_spec (s : FactoryState) (i : Nat) (seller : HumanAddr)
    (info : StoreAuctionInfo) (b : HumanAddr) (wb : Option Nat) (t : Nat)
    (s2 : FactoryState)
    (hact : lookupActive s.active i = some (seller, info))
    (hfresh : info.to_store_closed_auction_info wb t ∉ s.closed)
    (hwon : s.closed.length ∉ lookupSet s.closedWon b)
    (hok : close s i seller (some b) wb t = .ok s2) :
    lookupActive s2.active i = none ∧
    s2.closed = s.closed ++ [info.to_store_closed_auction_info wb t] ∧
    s2.closed.count (info.to_store_closed_auction_info wb t) = 1 ∧
    (∀ a, i ∉ lookupSet s2.activeAsSeller a ∧
      i ∉ lookupSet s2.activeAsBidder a) ∧
    (s.closed.length ∈ lookupSet s2.closedWon b ↔ wb.isSome = true) := by
  unfold close at hok
  split at hok
  · cases hok
  · rename_i ss info2 heq
    rw [hact] at heq
    injection heq with heq
    injection heq with heqs heqi
    subst heqs
    subst heqi
    rw [if_pos rfl] at hok
    injection hok with hok
    subst hok
    refine ⟨lookupActive_remove s.active i, rfl, ?_, ?_, ?_⟩
    · simp [List.count_append, List.count_eq_zero_of_not_mem hfresh]
    · intro a
      exact ⟨not_mem_lookupSet_removeFromAll _ i a,
        not_mem_lookupSet_removeFromAll _ i a⟩
    · cases wb with
      | none => exact iff_of_false hwon (by simp)
      | some v =>
        exact iff_of_true (mem_lookupSet_addToSet s.closedWon b _) rfl

/-- C6: `remove_bidder` never errors — in particular not on an unknown index —
and running it twice in a row errors neither time and leaves the state after
the second call identical to the state after the first. -/
theorem removeBidder_idempotent (s : FactoryState) (i : Nat) (b : HumanAddr) :
    removeBidder s i b = .ok (removeBidderState s i b) ∧
    removeBidder (removeBidderState s i b) i b =
      .ok (removeBidderState s i b) := by
  refine ⟨rfl, ?_⟩
  unfold removeBidder removeBidderState
  simp only [removeFromSet_idem]

/-- sample registration request for auction index 7. -/
def sampleAuction7 : RegisterAuctionInfo :=
  ⟨7, "lbl", 1, 2, ⟨1000⟩, ⟨100⟩, 2000000000⟩

/-- registry state with auction 7 active, seller `"sellerS"`, bidder
`"bob"`. -/
def sampleState : FactoryState :=
  { active := [⟨7, "sellerS", sampleAuction7.to_store_auction_info "auct7"⟩]
    everUsed := [7]
    activeAsSeller := [("sellerS", [7])]
    activeAsBidder := [("bob", [7])]
    closed := []
    closedAsSeller := []
    closedWon := [] }

/-- the state after closing auction 7 with winner `"bob"`, bid 150, time 5. -/
def sampleDoneState : FactoryState :=
  { active := []
    everUsed := [7]
    activeAsSeller := [("sellerS", [])]
    activeAsBidder := [("bob", [])]
    closed := [(sampleAuction7.to_store_auction_info
      "auct7").to_store_closed_auction_info (some 150) 5]
    closedAsSeller := [("sellerS", [0])]
    closedWon := [("bob", [0])] }

/-- C4 witness: after registering auction 7 and then closing it, registering
index 7 again still fails with `DuplicateIndex`. -/
theorem register_index_unique_witness :
    register
      (exec (exec initState [FactoryOp.register "sellerS" sampleAuction7 "auct7"])
        [FactoryOp.close 7 "sellerS" (some "bob") (some 150) 5])
      "sellerS" sampleAuction7 "auct7" = .error .DuplicateIndex := by
  have h := register_index_unique
    [FactoryOp.register "sellerS" sampleAuction7 "auct7"]
    [FactoryOp.close 7 "sellerS" (some "bob") (some 150) 5]
    "sellerS" sampleAuction7 "auct7" (by decide)
  exact h.2.1

/-- C9 witness: the record stored for the accepted sample registration has a
positive sell amount. -/
theorem register_sell_amount_pos_witness :
    0 < (sampleAuction7.to_store_auction_info "auct7").sell_amount := by
  have h := register_sell_amount_pos [] initState "sellerS" sampleAuction7
    "auct7"
    { initState with
      active := [⟨7, "sellerS", sampleAuction7.to_store_auction_info "auct7"⟩]
      everUsed := [7]
      activeAsSeller := [("sellerS", [7])] }
  exact (h.2 (by rfl)).1

/-- C3 witness: closing sample auction 7 with winner `"bob"` and bid 150
empties the registry of index 7, stores the snapshot exactly once, clears
`"bob"`'s active-as-bidder set, and records the win. -/
theorem close_spec_witness :
    lookupActive sampleDoneState.active 7 = none ∧
    sampleDoneState.closed.count
      ((sampleAuction7.to_store_auction_info
        "auct7").to_store_closed_auction_info (some 150) 5) = 1 ∧
    7 ∉ lookupSet sampleDoneState.activeAsBidder "bob" ∧
    (sampleState.closed.length ∈ lookupSet sampleDoneState.closedWon "bob" ↔
      (some 150 : Option Nat).isSome = true) := by
  have h := close_spec sampleState 7 "sellerS"
    (sampleAuction7.to_store_auction_info "auct7") "bob" (some 150) 5
    sampleDoneState (by rfl) (by decide) (by decide) (by rfl)
  exact ⟨h.1, h.2.2.1, (h.2.2.2.1 "bob").2, h.2.2.2.2⟩

/-- the filter types when viewing an address' auctions (`FilterTypes` in
`msg.rs`). -/
inductive FilterTypes where
  | Active
  | Closed
  | All
deriving DecidableEq

/-- active auction display info (`AuctionInfo` in `msg.rs`). -/
structure AuctionInfo where
  address : HumanAddr
  label : String
  pair : String
  sell_amount : Uint128
  sell_decimals : Nat
  minimum_bid : Uint128
  bid_decimals : Nat
  ends_at : Nat
deriving DecidableEq

/-- closed auction display info (`ClosedAuctionInfo` in `msg.rs`). -/
structure ClosedAuctionInfo where
  index : Option Nat
  address : HumanAddr
  label : String
  pair : String
  sell_amount : Uint128
  sell_decimals : Nat
  winning_bid : Option Uint128
  bid_decimals : Option Nat
  timestamp : Nat
deriving DecidableEq

/-- lists of active auctions where the address is seller or bidder
(`MyActiveLists` in `msg.rs`). -/
structure MyActiveLists where
  as_seller : Option (List AuctionInfo)
  as_bidder : Option (List AuctionInfo)
deriving DecidableEq

/-- lists of closed auctions where the address is the seller or won
(`MyClosedLists` in `msg.rs`). -/
structure MyClosedLists where
  as_seller : Option (List ClosedAuctionInfo)
  won : Option (List ClosedAuctionInfo)
deriving DecidableEq

/-- responses to queries (`QueryAnswer` in `msg.rs`). -/
inductive QueryAnswer where
  | ListMyAuctions (active : Option MyActiveLists)
      (closed : Option MyClosedLists)
  | ListActiveAuctions (active : Option (List AuctionInfo))
  | ListClosedAuctions (closed : Option (List ClosedAuctionInfo))
  | ViewingKeyError (error : String)
  | IsKeyValid (is_valid : Bool)
deriving DecidableEq

/-- lookup of an address's stored viewing-key verifier. -/
def lookupKey : List (HumanAddr × String) → HumanAddr → Option String
  | [], _ => none
  | (b, k) :: rest, a => if a = b then some k else lookupKey rest a

/-- Modelled from the spec: the viewing-key store holds one verifier per
address (`(address) → key_hash`); the Viewing-Key Authenticator code is not
under `src/`. -/
structure ViewingKeyStore where
  keys : List (HumanAddr × String)
deriving DecidableEq

/-- Modelled from the spec: `verify(address, key)` — compares the supplied
key against the stored verifier; absence of a stored key authenticates as
`false`, not an error. -/
def isKeyValid (store : ViewingKeyStore) (address : HumanAddr)
    (key : String) : Bool :=
  match lookupKey store.keys address with
  | none => false
  | some stored => stored == key

/-- Modelled from the spec: the single fixed message carried by
`QueryAnswer::ViewingKeyError` on every authentication failure, identical
whether the supplied key is wrong or no key was ever set. -/
def viewingKeyErrMsg : String :=
  "Wrong viewing key for this address or viewing key not set"

/-- does the filter select the active categories? -/
def FilterTypes.includesActive : FilterTypes → Bool
  | .Active => true
  | .All => true
  | .Closed => false

/-- does the filter select the closed categories? -/
def FilterTypes.includesClosed : FilterTypes → Bool
  | .Closed => true
  | .All => true
  | .Active => false

/-- Modelled from the spec: `list_my_auctions(address, filter)` — requires
successful authentication, answering `ViewingKeyError` with the fixed message
on failure; on success returns the address's four per-address sets filtered
by `filter`, with absent categories omitted rather than returned empty.  The
display formatters (Symbol Table resolution) are supplied as `fmtA`/`fmtC`;
the query handler is not under `src/`. -/
def listMyAuctions (fmtA : StoreAuctionInfo → AuctionInfo)
    (fmtC : Nat → StoreClosedAuctionInfo → ClosedAuctionInfo)
    (store : ViewingKeyStore) (s : FactoryState) (address : HumanAddr)
    (viewing_key : String) (filter : FilterTypes) : QueryAnswer :=
  if isKeyValid store address viewing_key then
    let asSeller := (lookupSet s.activeAsSeller address).filterMap
      (fun i => (lookupActive s.active i).map (fun pr => fmtA pr.2))
    let asBidder := (lookupSet s.activeAsBidder address).filterMap
      (fun i => (lookupActive s.active i).map (fun pr => fmtA pr.2))
    let closedSeller := ((lookupSet s.closedAsSeller address).reverse).filterMap
      (fun p => (s.closed[p]?).map (fmtC p))
    let won := ((lookupSet s.closedWon address).reverse).filterMap
      (fun p => (s.closed[p]?).map (fmtC p))
    let active :=
      if filter.includesActive && !(asSeller.isEmpty && asBidder.isEmpty) then
        some { as_seller := if asSeller.isEmpty then none else some asSeller
               as_bidder := if asBidder.isEmpty then none else some asBidder }
      else none
    let closed :=
      if filter.includesClosed && !(closedSeller.isEmpty && won.isEmpty) then
        some { as_seller := if closedSeller.isEmpty then none else some closedSeller
               won := if won.isEmpty then none else some won }
      else none
    QueryAnswer.ListMyAuctions active closed
  else QueryAnswer.ViewingKeyError viewingKeyErrMsg

/-- C7: authentication failure is observationally identical whether the
address has no stored key or a different stored key: `verify` returns `false`
(never an error) in both cases, and the authenticated query answers the same
`ViewingKeyError` content in both cases. -/
theorem auth_failure_uniform (fmtA : StoreAuctionInfo → AuctionInfo)
    (fmtC : Nat → StoreClosedAuctionInfo → ClosedAuctionInfo)
    (store : ViewingKeyStore) (s : FactoryState) (address : HumanAddr)
    (key stored : String) (filter : FilterTypes) :
    (lookupKey store.keys address = none →
      isKeyValid store address key = false ∧
      listMyAuctions fmtA fmtC store s address key filter =
        .ViewingKeyError viewingKeyErrMsg) ∧
    (lookupKey store.keys address = some stored → stored ≠ key →
      isKeyValid store address key = false ∧
      listMyAuctions fmtA fmtC store s address key filter =
        .ViewingKeyError viewingKeyErrMsg) := by
  constructor
  · intro hnone
    have hv : isKeyValid store address key = false := by
      unfold isKeyValid
      rw [hnone]
    exact ⟨hv, by simp [listMyAuctions, hv]⟩
  · intro hsome hne
    have hv : isKeyValid store address key = false := by
      unfold isKeyValid
      rw [hsome]
      simpa using hne
    exact ⟨hv, by simp [listMyAuctions, hv]⟩

/-- sample Display Formatter for active records. -/
def sampleFmtA : StoreAuctionInfo → AuctionInfo := fun info =>
  ⟨info.address, info.label, "SELL-BID", ⟨info.sell_amount⟩, 6,
    ⟨info.minimum_bid⟩, 6, info.ends_at⟩

/-- sample Display Formatter for closed records. -/
def sampleFmtC : Nat → StoreClosedAuctionInfo → ClosedAuctionInfo :=
  fun p rec =>
    ⟨some p, rec.address, rec.label, "SELL-BID", ⟨rec.sell_amount⟩, 6,
      rec.winning_bid.map (fun w => ⟨w⟩), rec.winning_bid.map (fun _ => 6),
      rec.timestamp⟩

/-- C7 witness: with no key stored for `"addr1"`, and with key `"k1"` stored
while `"k2"` is supplied, `verify` answers `false` both times and the query
answers the identical `ViewingKeyError` both times. -/
theorem auth_failure_uniform_witness :
    isKeyValid ⟨[]⟩ "addr1" "k2" = false ∧
    listMyAuctions sampleFmtA sampleFmtC ⟨[]⟩ initState "addr1" "k2"
      FilterTypes.All = .ViewingKeyError viewingKeyErrMsg ∧
    isKeyValid ⟨[("addr1", "k1")]⟩ "addr1" "k2" = false ∧
    listMyAuctions sampleFmtA sampleFmtC ⟨[("addr1", "k1")]⟩ initState
      "addr1" "k2" FilterTypes.All = .ViewingKeyError viewingKeyErrMsg := by
  have h1 := (auth_failure_uniform sampleFmtA sampleFmtC ⟨[]⟩ initState
    "addr1" "k2" "" FilterTypes.All).1 (by rfl)
  have h2 := (auth_failure_uniform sampleFmtA sampleFmtC ⟨[("addr1", "k1")]⟩
    initState "addr1" "k2" "k1" FilterTypes.All).2 (by rfl) (by decide)
  exact ⟨h1.1, h1.2, h2.1, h2.2⟩

end AuctionFactory
